import Mathlib

/-!
Shallow embedding of the pi-audio-book-player repository
(src/audio_player.py, src/state_manager.py, src/main.py).

Wall-clock timestamps and playback positions are modelled as rationals
(Python floats), file existence and process-launch success as explicit
environment parameters, and the decoder subprocess handle as an
`Option Unit` (present iff a live process is owned).
-/

namespace PiAudioBook

/-! ## JSON values (the durable state file's content, src/state_manager.py) -/

/-- A JSON value as produced/consumed by Python's json module; objects are
the finalized dicts (string keys, later duplicate keys overriding earlier
ones, mirrored by a last-wins lookup). -/
inductive JVal where
  | jnull : JVal
  | jbool (b : Bool) : JVal
  | jint (n : Int) : JVal
  | jnum (q : Rat) : JVal
  | jstr (s : String) : JVal
  | jarr (xs : List JVal) : JVal
  | jobj (fields : List (String × JVal)) : JVal
deriving Repr

/-- Python `dict.get(k, d)`: last binding of `k` wins, default `d` otherwise. -/
def jgetD (fields : List (String × JVal)) (k : String) (d : JVal) : JVal :=
  match fields.reverse.find? (fun p => p.1 == k) with
  | some p => p.2
  | none => d

/-- What reading the state file can yield: no file, an IO failure, a JSON
parse failure (json.JSONDecodeError), or a parsed JSON value. -/
inductive ReadResult where
  | missing : ReadResult
  | ioError : ReadResult
  | parseError : ReadResult
  | ok (j : JVal) : ReadResult

/-- An uncaught Python exception escaping `load_state`. -/
inductive PyError where
  | attributeError : PyError
deriving Repr, DecidableEq

/-! ## StateManager (src/state_manager.py) -/

/-- In-memory fields of `StateManager` (book index is a Python int,
position a Python float). -/
structure SMState where
  current_book_index : Int
  current_position : Rat
deriving Repr, DecidableEq

/-- `save_state`: the JSON object written to the state file
(src/state_manager.py lines 37-47). -/
def save_json (s : SMState) : JVal :=
  .jobj [("book_index", .jint s.current_book_index), ("position", .jnum s.current_position)]

/-- `load_state` (src/state_manager.py lines 21-35), acting on the two
dynamically-typed fields `(bi, pos)` it assigns. Missing file: fields kept
(the constructor initialized them to the defaults). JSONDecodeError/IOError:
caught, fields reset to the defaults 0 and 0.0. Parsed JSON object: fields
become `data.get('book_index', 0)` and `data.get('position', 0.0)`. Parsed
JSON that is not an object: `data.get` raises AttributeError, which the
`except (json.JSONDecodeError, IOError)` clause does not catch. -/
def load_fields (bi pos : JVal) (r : ReadResult) : Except PyError (JVal × JVal) :=
  match r with
  | .missing => .ok (bi, pos)
  | .ioError => .ok (.jint 0, .jnum 0)
  | .parseError => .ok (.jint 0, .jnum 0)
  | .ok (.jobj fields) =>
      .ok (jgetD fields "book_index" (.jint 0), jgetD fields "position" (.jnum 0))
  | .ok _ => .error .attributeError

/-- `set_book` (src/state_manager.py lines 49-57): sets the index and resets
the position to 0.0 (the immediate `save_state()` call is emitted as an
effect by the orchestrator model below). -/
def set_book (_s : SMState) (book_index : Int) : SMState :=
  { current_book_index := book_index, current_position := 0 }

/-- `set_position` (src/state_manager.py lines 59-65): clamps to ≥ 0,
in memory only. -/
def set_position (s : SMState) (p : Rat) : SMState :=
  { s with current_position := max 0 p }

/-! ## AudioPlayer (src/audio_player.py) -/

/-- The mutable fields of `AudioPlayer` that the control flow reads or
writes. `process = some ()` models a live madplay process handle;
timestamps and positions are rationals (seconds). -/
structure PlayerState where
  current_file : Option String
  is_playing : Bool
  is_paused : Bool
  seek_seconds : Rat
  current_position : Rat
  sleep_timer_end : Option Rat
  playback_start_time : Option Rat
  pause_time : Option Rat
  accumulated_pause_duration : Rat
  process : Option Unit
  running : Bool
deriving Repr, DecidableEq

/-- `stop` (src/audio_player.py lines 89-110): terminates the process group
(modelled as dropping the handle) and resets the session fields the code
lists; `current_position`, `sleep_timer_end` and `seek_seconds` are not
touched by `stop` in the source. -/
def stopS (s : PlayerState) : PlayerState :=
  { s with
    process := none
    is_playing := false
    is_paused := false
    current_file := none
    playback_start_time := none
    pause_time := none
    accumulated_pause_duration := 0 }

/-- `start` (src/audio_player.py lines 35-87). `fs` is the file system's
existence predicate, `launch` whether `subprocess.Popen` succeeds, `now` the
wall clock at the call. It first runs `stop()` unconditionally (line 45),
then fails returning False if the file is `None` (TypeError from
`os.path.exists`, caught by the blanket `except`) or does not exist or the
launch raises; on success it installs the new session with
`playback_start_time = now - start_position` and
`accumulated_pause_duration = 0`. -/
def startS (s : PlayerState) (fs : String → Bool) (launch : Bool) (now : Rat)
    (audio_file : Option String) (start_position : Rat) : PlayerState × Bool :=
  let s0 := stopS s
  match audio_file with
  | none => (s0, false)
  | some f =>
      if fs f then
        if launch then
          ({ s0 with
              process := some ()
              current_file := some f
              current_position := start_position
              playback_start_time := some (now - start_position)
              accumulated_pause_duration := 0
              is_playing := true
              is_paused := false }, true)
        else (s0, false)
      else (s0, false)

/-- `pause` (src/audio_player.py lines 112-123): only when playing, not
already paused, and a process handle exists (`self.process` truthy); sends
SIGSTOP, marks paused and records the pause timestamp. -/
def pauseS (s : PlayerState) (now : Rat) : PlayerState :=
  if s.is_playing && !s.is_paused && s.process.isSome then
    { s with is_paused := true, pause_time := some now }
  else s

/-- `resume` (src/audio_player.py lines 125-138): only when playing, paused
and a process exists; `if self.pause_time:` is a Python truthiness test, so
the paused interval is folded into `accumulated_pause_duration` only when
`pause_time` is a non-zero timestamp; then clears the paused flag. -/
def resumeS (s : PlayerState) (now : Rat) : PlayerState :=
  if s.is_playing && s.is_paused && s.process.isSome then
    match s.pause_time with
    | some pt =>
        if pt ≠ 0 then
          { s with
            accumulated_pause_duration := s.accumulated_pause_duration + (now - pt)
            pause_time := none
            is_paused := false }
        else { s with is_paused := false }
    | none => { s with is_paused := false }
  else s

/-- `toggle_play_pause` (src/audio_player.py lines 140-146). -/
def toggleS (s : PlayerState) (now : Rat) : PlayerState :=
  if s.is_playing then
    if s.is_paused then resumeS s now else pauseS s now
  else s

/-- `seek_forward` (src/audio_player.py lines 148-158): restarts the decoder
at `current_position + seek_seconds`, re-pausing afterwards if the session
was paused. -/
def seekForwardS (s : PlayerState) (fs : String → Bool) (launch : Bool)
    (now : Rat) : PlayerState :=
  if s.is_playing then
    let newPos := s.current_position + s.seek_seconds
    let wasPaused := s.is_paused
    let s1 := (startS s fs launch now s.current_file newPos).1
    if wasPaused then pauseS s1 now else s1
  else s

/-- `seek_backward` (src/audio_player.py lines 160-170): restarts the decoder
at `max(0, current_position - seek_seconds)`, re-pausing afterwards if the
session was paused. -/
def seekBackwardS (s : PlayerState) (fs : String → Bool) (launch : Bool)
    (now : Rat) : PlayerState :=
  if s.is_playing then
    let newPos := max 0 (s.current_position - s.seek_seconds)
    let wasPaused := s.is_paused
    let s1 := (startS s fs launch now s.current_file newPos).1
    if wasPaused then pauseS s1 now else s1
  else s

/-- `add_sleep_timer` (src/audio_player.py lines 172-187): no-op unless
playing and not paused; sets the deadline to `now + minutes*60` when no
deadline is set or the existing one is ≤ now, otherwise adds `minutes*60`
to the existing deadline. -/
def addSleepTimerS (s : PlayerState) (now : Rat) (minutes : Int) : PlayerState :=
  if s.is_playing && !s.is_paused then
    match s.sleep_timer_end with
    | none => { s with sleep_timer_end := some (now + (minutes : Rat) * 60) }
    | some e =>
        if e ≤ now then { s with sleep_timer_end := some (now + (minutes : Rat) * 60) }
        else { s with sleep_timer_end := some (e + (minutes : Rat) * 60) }
  else s

/-- The position the monitor loop computes at wall-clock `now`
(src/audio_player.py line 216): elapsed time since the virtual start minus
the accumulated pause duration (falling back to the stored position when no
session start timestamp exists). -/
def estPos (s : PlayerState) (now : Rat) : Rat :=
  match s.playback_start_time with
  | some st => now - st - s.accumulated_pause_duration
  | none => s.current_position

/-- One iteration of the `_monitor_playback` loop body
(src/audio_player.py lines 206-229) at wall-clock `now`; `exited` tells
whether `process.poll()` reports the decoder gone. The body only runs while
`running` and `is_playing`; the position update and the subsequent checks
are skipped while paused or without a start timestamp; a detected process
exit ends the session (breaking before the sleep check); an elapsed sleep
deadline (Python truthiness: set and non-zero) pauses and clears the
deadline. -/
def tickS (s : PlayerState) (now : Rat) (exited : Bool) : PlayerState :=
  if s.running && s.is_playing then
    if !s.is_paused && s.playback_start_time.isSome then
      let s1 := { s with current_position := estPos s now }
      if s1.process.isSome && exited then
        { s1 with is_playing := false }
      else
        match s1.sleep_timer_end with
        | some dl =>
            if dl ≠ 0 && decide (dl ≤ now) then
              { (pauseS s1 now) with sleep_timer_end := none }
            else s1
        | none => s1
    else s
  else s

/-! ## Orchestrator (src/main.py) -/

/-- One audiobook entry from the configuration: display name and file
path. -/
structure Book where
  name : String
  path : String
deriving Repr, DecidableEq

/-- State owned by `AudiobookPlayer` that book switching touches: the
StateManager fields and the AudioPlayer session. -/
structure AppState where
  sm : SMState
  player : PlayerState
deriving Repr, DecidableEq

/-- Externally visible actions performed by the orchestrator, in order. -/
inductive Effect where
  | stateSaved (j : JVal) : Effect
  | announcementPlayed (file : String) (ok : Bool) : Effect
  | playbackStarted (file : String) (pos : Rat) (ok : Bool) : Effect
  | ledsUpdated (idx : Int) : Effect

/-- Python list indexing `audiobooks[i]` for an in-range index. -/
def getBookAt (books : List Book) (i : Int) : Book :=
  (books.get? i.toNat).getD { name := "", path := "" }

/-- `_switch_book` (src/main.py lines 132-155): when the index is in range,
saves the current position (clamped by `set_position`), persists, switches
the StateManager to the new book (position 0.0, persisted again inside
`set_book`), plays the announcement clip `{index+1}.mp3` synchronously,
starts the new book at position 0.0 and updates the LEDs. -/
def switch_book (books : List Book) (annPath : String) (fs : String → Bool)
    (launch : Bool) (now : Rat) (app : AppState) (book_index : Int) :
    AppState × List Effect :=
  if 0 ≤ book_index ∧ book_index < (books.length : Int) then
    let pos := app.player.current_position
    let sm1 := set_position app.sm pos
    let sm2 := set_book sm1 book_index
    let book := getBookAt books book_index
    let annFile := annPath ++ "/" ++ toString (book_index + 1) ++ ".mp3"
    let res := startS app.player fs launch now (some book.path) 0
    ({ sm := sm2, player := res.1 },
      [.stateSaved (save_json sm1), .stateSaved (save_json sm2),
       .announcementPlayed annFile (fs annFile),
       .playbackStarted book.path 0 res.2,
       .ledsUpdated book_index])
  else (app, [])

/-- `_on_next_book` (src/main.py lines 98-104): advances the StateManager's
book index by one modulo the number of books (Python `%`, i.e. `Int.emod`)
and switches. -/
def on_next_book (books : List Book) (annPath : String) (fs : String → Bool)
    (launch : Bool) (now : Rat) (app : AppState) : AppState × List Effect :=
  let current := app.sm.current_book_index
  let nxt := (current + 1) % (books.length : Int)
  switch_book books annPath fs launch now app nxt

/-- `_on_prev_book` (src/main.py lines 106-112): decrements the book index
modulo the number of books and switches. -/
def on_prev_book (books : List Book) (annPath : String) (fs : String → Bool)
    (launch : Bool) (now : Rat) (app : AppState) : AppState × List Effect :=
  let current := app.sm.current_book_index
  let prv := (current - 1) % (books.length : Int)
  switch_book books annPath fs launch now app prv

/-! ## Session invariant and monitor-event traces -/

/-- The PlaybackSession invariant at wall-clock time `t` (the time of the
most recent operation): `is_paused ⇒ is_playing`, `current_position ≥ 0`,
a non-negative seek delta, and — while a session is live — a start
timestamp consistent with the clock: the stored position never exceeds the
monitor-loop estimate at `t` (or, while paused, the estimate frozen at the
pause timestamp, which is itself ≤ t). -/
def Inv (s : PlayerState) (t : Rat) : Prop :=
  (s.is_paused = true → s.is_playing = true) ∧
  0 ≤ s.current_position ∧
  0 ≤ s.seek_seconds ∧
  (s.is_playing = true →
    s.playback_start_time.isSome = true ∧
    (s.is_paused = true →
      s.pause_time.isSome = true ∧
      s.current_position ≤
        s.pause_time.getD 0 - s.playback_start_time.getD 0 - s.accumulated_pause_duration ∧
      s.pause_time.getD 0 ≤ t) ∧
    (s.is_paused = false →
      s.current_position ≤ t - s.playback_start_time.getD 0 - s.accumulated_pause_duration))

/-- Events the playback session undergoes while a file plays: button-driven
pause/resume and monitor-loop iterations, each stamped with the wall-clock
time at which it runs. -/
inductive PEvent where
  | pauseE (now : Rat) : PEvent
  | resumeE (now : Rat) : PEvent
  | tickE (now : Rat) (exited : Bool) : PEvent

/-- Wall-clock time of an event. -/
def evTime : PEvent → Rat
  | .pauseE t => t
  | .resumeE t => t
  | .tickE t _ => t

/-- Interpretation of one event on the session state. -/
def pstep (s : PlayerState) : PEvent → PlayerState
  | .pauseE t => pauseS s t
  | .resumeE t => resumeS s t
  | .tickE t e => tickS s t e

/-- Running a sequence of events left to right. -/
def runTrace (s : PlayerState) : List PEvent → PlayerState
  | [] => s
  | e :: es => runTrace (pstep s e) es

/-- Events happen at non-decreasing wall-clock times, all at or after `t`. -/
def Chrono : Rat → List PEvent → Prop
  | _, [] => True
  | t, e :: es => t ≤ evTime e ∧ Chrono (evTime e) es

/-- The wall-clock time after the last event of the trace (`t` if empty). -/
def endTime : Rat → List PEvent → Rat
  | t, [] => t
  | _, e :: es => endTime (evTime e) es

/-! ## Sample states used by counterexamples and witnesses -/

/-- A live unpaused session: playing `book1.mp3`, position 5s at wall
clock 100 (so the virtual start timestamp is 95), no pause history. -/
def samplePlaying : PlayerState :=
  { current_file := some "book1.mp3"
    is_playing := true
    is_paused := false
    seek_seconds := 60
    current_position := 5
    sleep_timer_end := none
    playback_start_time := some 95
    pause_time := none
    accumulated_pause_duration := 0
    process := some ()
    running := true }

/-- An idle player (no session). -/
def sampleStopped : PlayerState :=
  { current_file := none
    is_playing := false
    is_paused := false
    seek_seconds := 60
    current_position := 12
    sleep_timer_end := none
    playback_start_time := none
    pause_time := none
    accumulated_pause_duration := 0
    process := none
    running := true }

/-! ## Claim theorems -/

/-- C4: saving `{book_index, position}` via `save_state` and loading the
written JSON object back via `load_state` yields exactly the same pair, for
every non-negative integer index and non-negative position (from any prior
in-memory fields `b0, p0`). -/
theorem C4_save_load_roundtrip (i : Int) (p : Rat) (b0 p0 : JVal)
    (hi : 0 ≤ i) (hp : 0 ≤ p) :
    load_fields b0 p0 (.ok (save_json ⟨i, p⟩)) = .ok (.jint i, .jnum p) := by
  rfl

theorem C4_witness :
    load_fields (.jint 0) (.jnum 0) (.ok (save_json ⟨2, (275 : Rat) / 2⟩)) =
      .ok (.jint 2, .jnum ((275 : Rat) / 2)) :=
  C4_save_load_roundtrip 2 ((275 : Rat) / 2) (.jint 0) (.jnum 0)
    (by norm_num) (by norm_num)

/-- C7: `load_state` handles a missing file (fields kept at their
initialized defaults) and JSON-parse/IO errors (reset to defaults 0, 0.0),
but a state file holding valid JSON that is not an object — e.g. the JSON
array `[]` — makes `data.get` raise an uncaught AttributeError: the
operation crashes instead of falling back to the defaults. -/
theorem C7_load_crash :
    load_fields (.jint 0) (.jnum 0) (.ok (.jarr [])) = .error .attributeError ∧
    load_fields (.jint 0) (.jnum 0) .missing = .ok (.jint 0, .jnum 0) ∧
    load_fields (.jint 0) (.jnum 0) .parseError = .ok (.jint 0, .jnum 0) ∧
    load_fields (.jint 0) (.jnum 0) .ioError = .ok (.jint 0, .jnum 0) :=
  ⟨rfl, rfl, rfl, rfl⟩

/-- C10: when no session is playing, `toggle_play_pause`, `seek_forward`
and `seek_backward` leave the whole player state unchanged (and in
particular touch no decoder process, since the state equality covers the
`process` field). -/
theorem C10_noop_when_not_playing (s : PlayerState) (fs : String → Bool)
    (launch : Bool) (now : Rat) (h : s.is_playing = false) :
    toggleS s now = s ∧ seekForwardS s fs launch now = s ∧
    seekBackwardS s fs launch now = s := by
  unfold toggleS seekForwardS seekBackwardS
  simp [h]

theorem C10_witness :
    toggleS sampleStopped 5 = sampleStopped ∧
    seekForwardS sampleStopped (fun _ => true) true 5 = sampleStopped ∧
    seekBackwardS sampleStopped (fun _ => true) true 5 = sampleStopped :=
  C10_noop_when_not_playing sampleStopped (fun _ => true) true 5 rfl

/-- C8: `pause` is idempotent — a second `pause` call (at any later time)
is a no-op on the whole state — and a later `resume` folds the paused
interval in exactly once: the accumulated pause duration grows by
`t3 - t1` (resume time minus first-pause time), not twice that. -/
theorem C8_pause_idempotent (s : PlayerState) (t1 t2 t3 : Rat) :
    pauseS (pauseS s t1) t2 = pauseS s t1 ∧
    resumeS (pauseS (pauseS s t1) t2) t3 = resumeS (pauseS s t1) t3 ∧
    (s.is_playing = true → s.is_paused = false → s.process.isSome = true →
      t1 ≠ 0 →
      (resumeS (pauseS (pauseS s t1) t2) t3).accumulated_pause_duration =
        s.accumulated_pause_duration + (t3 - t1)) := by
  by_cases h : (s.is_playing && !s.is_paused && s.process.isSome) = true
  · have hfix : pauseS (pauseS s t1) t2 = pauseS s t1 := by
      simp [pauseS, h]
    refine ⟨hfix, by rw [hfix], ?_⟩
    intro hplay hpause hproc ht1
    rw [hfix]
    simp only [Bool.and_eq_true, Bool.not_eq_true'] at h
    simp [pauseS, h, resumeS, ht1]
  · have hid : pauseS s t1 = s := by simp [pauseS, h]
    have hid2 : pauseS s t2 = s := by simp [pauseS, h]
    refine ⟨by rw [hid, hid2], by rw [hid, hid2], ?_⟩
    intro hplay hpause hproc _
    exfalso
    simp [hplay, hpause, hproc] at h

theorem C8_witness :
    (resumeS (pauseS (pauseS samplePlaying 101) 102) 103).accumulated_pause_duration =
      samplePlaying.accumulated_pause_duration + (103 - 101) :=
  (C8_pause_idempotent samplePlaying 101 102 103).2.2 rfl rfl rfl (by norm_num)

/-- C1 as stated is false: a `start` call on a missing file does return
failure, but the session that was playing before the call is not left in
its playing state — `start` runs `stop()` before the existence check, so
afterwards `is_playing` is `false` although it was `true` before. -/
theorem C1_counterexample :
    (startS samplePlaying (fun _ => false) true 200 (some "book2.mp3") 0).2 = false ∧
    samplePlaying.is_playing = true ∧
    (startS samplePlaying (fun _ => false) true 200 (some "book2.mp3") 0).1.is_playing = false :=
  ⟨rfl, rfl, rfl⟩

/-- C1 amended: when the target file does not exist, `start` returns
failure without raising, but the previous session has been stopped first
(`stop()` runs unconditionally before the existence check): the resulting
state is exactly the stopped state — not playing, not paused, no file, no
process — with `current_position` retaining its prior value. -/
theorem C1_start_missing_stops_session (s : PlayerState) (fs : String → Bool)
    (launch : Bool) (now : Rat) (f : String) (p : Rat) (hf : fs f = false) :
    startS s fs launch now (some f) p = (stopS s, false) ∧
    (stopS s).is_playing = false ∧ (stopS s).is_paused = false ∧
    (stopS s).process = none ∧
    (stopS s).current_position = s.current_position := by
  unfold startS stopS
  simp [hf]

theorem C1_witness :
    startS samplePlaying (fun _ => false) true 200 (some "book2.mp3") 0 =
      (stopS samplePlaying, false) :=
  (C1_start_missing_stops_session samplePlaying (fun _ => false) true 200
    "book2.mp3" 0 rfl).1

/-- C5: `add_sleep_timer` is a no-op unless playing and not paused; when
playing-unpaused it sets the deadline to `now + minutes*60` if none is set
or the existing one has elapsed (`≤ now`), and otherwise adds `minutes*60`
to the existing deadline — so two `add_sleep_timer(5)` calls at the same
instant starting from no active deadline yield `now + 10*60`. -/
theorem C5_sleep_timer (s : PlayerState) (now : Rat) (m : Int) (e : Rat) :
    ((s.is_playing && !s.is_paused) = false → addSleepTimerS s now m = s) ∧
    (s.is_playing = true → s.is_paused = false → s.sleep_timer_end = none →
      (addSleepTimerS s now m).sleep_timer_end = some (now + (m : Rat) * 60)) ∧
    (s.is_playing = true → s.is_paused = false → s.sleep_timer_end = some e →
      e ≤ now →
      (addSleepTimerS s now m).sleep_timer_end = some (now + (m : Rat) * 60)) ∧
    (s.is_playing = true → s.is_paused = false → s.sleep_timer_end = some e →
      now < e →
      (addSleepTimerS s now m).sleep_timer_end = some (e + (m : Rat) * 60)) ∧
    (s.is_playing = true → s.is_paused = false → s.sleep_timer_end = none →
      (addSleepTimerS (addSleepTimerS s now 5) now 5).sleep_timer_end =
        some (now + 10 * 60)) := by
  refine ⟨?_, ?_, ?_, ?_, ?_⟩
  · intro h
    simp [addSleepTimerS, h]
  · intro hplay hpause hnone
    simp [addSleepTimerS, hplay, hpause, hnone]
  · intro hplay hpause hsome hle
    simp [addSleepTimerS, hplay, hpause, hsome, hle]
  · intro hplay hpause hsome hlt
    simp [addSleepTimerS, hplay, hpause, hsome, not_le.mpr hlt]
  · intro hplay hpause hnone
    have h1 : (addSleepTimerS s now 5) = { s with sleep_timer_end := some (now + (5 : Rat) * 60) } := by
      simp [addSleepTimerS, hplay, hpause, hnone]
    rw [h1]
    have hgt : ¬ (now + (5 : Rat) * 60 ≤ now) := by norm_num
    simp [addSleepTimerS, hplay, hpause, hgt]
    ring

theorem C5_witness :
    (addSleepTimerS (addSleepTimerS samplePlaying 100 5) 100 5).sleep_timer_end =
      some (100 + 10 * 60) :=
  (C5_sleep_timer samplePlaying 100 5 150).2.2.2.2 rfl rfl rfl

/-- Field effects of a successful `seek_forward`: the session keeps playing
the same file with the position advanced by the seek delta. -/
theorem seek_forward_fields (s : PlayerState) (fs : String → Bool) (now : Rat)
    (f : String) (hplay : s.is_playing = true) (hfile : s.current_file = some f)
    (hfs : fs f = true) :
    (seekForwardS s fs true now).current_position = s.current_position + s.seek_seconds ∧
    (seekForwardS s fs true now).is_playing = true ∧
    (seekForwardS s fs true now).current_file = some f ∧
    (seekForwardS s fs true now).seek_seconds = s.seek_seconds := by
  unfold seekForwardS
  rw [hfile]
  by_cases hp : s.is_paused = true
  · simp [hplay, hp, hfs, startS, stopS, pauseS]
  · simp only [Bool.not_eq_true] at hp
    simp [hplay, hp, hfs, startS, stopS, pauseS]

/-- Field effects of a successful `seek_backward`: the session keeps
playing the same file with the position moved back by the seek delta,
clamped at 0. -/
theorem seek_backward_fields (s : PlayerState) (fs : String → Bool) (now : Rat)
    (f : String) (hplay : s.is_playing = true) (hfile : s.current_file = some f)
    (hfs : fs f = true) :
    (seekBackwardS s fs true now).current_position =
      max 0 (s.current_position - s.seek_seconds) ∧
    (seekBackwardS s fs true now).is_playing = true ∧
    (seekBackwardS s fs true now).current_file = some f ∧
    (seekBackwardS s fs true now).seek_seconds = s.seek_seconds := by
  unfold seekBackwardS
  rw [hfile]
  by_cases hp : s.is_paused = true
  · simp [hplay, hp, hfs, startS, stopS, pauseS]
  · simp only [Bool.not_eq_true] at hp
    simp [hplay, hp, hfs, startS, stopS, pauseS]

/-- C2: for a playing session on an existing file at position `p ≥ 0`,
`seek_forward` advances the position by the configured delta and an
immediately following `seek_backward` restores exactly `p` (exact, not just
within rounding, in this rational model); and `seek_backward` alone from a
position below the delta yields exactly 0, never a negative value. -/
theorem C2_seek_roundtrip (s : PlayerState) (fs : String → Bool)
    (now now2 : Rat) (f : String)
    (hplay : s.is_playing = true) (hfile : s.current_file = some f)
    (hfs : fs f = true) (hpos : 0 ≤ s.current_position) :
    (seekForwardS s fs true now).current_position =
      s.current_position + s.seek_seconds ∧
    (seekBackwardS (seekForwardS s fs true now) fs true now2).current_position =
      s.current_position ∧
    (s.current_position < s.seek_seconds →
      (seekBackwardS s fs true now).current_position = 0) := by
  obtain ⟨h1pos, h1play, h1file, h1seek⟩ := seek_forward_fields s fs now f hplay hfile hfs
  obtain ⟨h2pos, h2play, h2file, h2seek⟩ :=
    seek_backward_fields (seekForwardS s fs true now) fs now2 f h1play h1file hfs
  refine ⟨h1pos, ?_, ?_⟩
  · rw [h2pos, h1pos, h1seek]
    have hsub : s.current_position + s.seek_seconds - s.seek_seconds =
        s.current_position := by ring
    rw [hsub, max_eq_right hpos]
  · intro hlt
    obtain ⟨h3pos, h3play, h3file, h3seek⟩ :=
      seek_backward_fields s fs now f hplay hfile hfs
    rw [h3pos, max_eq_left (sub_nonpos.mpr (le_of_lt hlt))]

theorem C2_witness :
    (seekForwardS samplePlaying (fun _ => true) true 100).current_position = 5 + 60 ∧
    (seekBackwardS (seekForwardS samplePlaying (fun _ => true) true 100)
      (fun _ => true) true 101).current_position = 5 ∧
    (seekBackwardS samplePlaying (fun _ => true) true 100).current_position = 0 := by
  have h := C2_seek_roundtrip samplePlaying (fun _ => true) 100 101 "book1.mp3"
    rfl rfl rfl (by norm_num [samplePlaying])
  exact ⟨h.1, h.2.1, h.2.2 (by norm_num [samplePlaying])⟩

/-! ## Invariant preservation lemmas -/

/-- The session invariant is monotone in the clock: once it holds at `t`
it holds at any later instant with no intervening operation. -/
theorem inv_mono (s : PlayerState) (t t' : Rat) (h : Inv s t) (htt : t ≤ t') :
    Inv s t' := by
  obtain ⟨hA, hB, hC, hD⟩ := h
  refine ⟨hA, hB, hC, fun hplay => ?_⟩
  obtain ⟨h1, h2, h3⟩ := hD hplay
  refine ⟨h1, fun hp => ?_, fun hp => ?_⟩
  · obtain ⟨ha, hb, hc⟩ := h2 hp
    exact ⟨ha, hb, le_trans hc htt⟩
  · have := h3 hp
    linarith

/-- `stop` preserves the session invariant. -/
theorem inv_stopS (s : PlayerState) (t : Rat) (h : Inv s t) : Inv (stopS s) t := by
  obtain ⟨hA, hB, hC, hD⟩ := h
  refine ⟨?_, ?_, ?_, ?_⟩
  · simp [stopS]
  · simpa [stopS] using hB
  · simpa [stopS] using hC
  · simp [stopS]

/-- `start` preserves (indeed re-establishes) the session invariant for a
non-negative starting position. -/
theorem inv_startS (s : PlayerState) (t : Rat) (fs : String → Bool)
    (launch : Bool) (now : Rat) (file : Option String) (p : Rat)
    (h : Inv s t) (htn : t ≤ now) (hp : 0 ≤ p) :
    Inv (startS s fs launch now file p).1 now := by
  have hstop : Inv (stopS s) now := inv_mono _ _ _ (inv_stopS s t h) htn
  obtain ⟨hA, hB, hC, hD⟩ := h
  cases file with
  | none => exact hstop
  | some f =>
      by_cases hfs : fs f = true
      · cases launch with
        | false =>
            simp only [startS, hfs, if_true]
            exact hstop
        | true =>
            simp only [startS, hfs, if_true]
            refine ⟨?_, ?_, ?_, ?_⟩
            · simp
            · simpa using hp
            · simpa [stopS] using hC
            · intro _
              refine ⟨by simp, ?_, ?_⟩
              · intro hcontra
                simp at hcontra
              · intro _
                simp [stopS]
      · have hfs' : fs f = false := by simpa using hfs
        simp only [startS, hfs', Bool.false_eq_true, if_false]
        exact hstop

/-- `pause` preserves the session invariant. -/
theorem inv_pauseS (s : PlayerState) (t now : Rat) (h : Inv s t) (htn : t ≤ now) :
    Inv (pauseS s now) now := by
  by_cases hc : (s.is_playing && !s.is_paused && s.process.isSome) = true
  · obtain ⟨hA, hB, hC, hD⟩ := h
    have hc' := hc
    simp only [Bool.and_eq_true, Bool.not_eq_true'] at hc'
    obtain ⟨⟨hplay, hpause⟩, hproc⟩ := hc'
    obtain ⟨h1, h2, h3⟩ := hD hplay
    have hbound := h3 hpause
    simp only [pauseS, hc, if_true]
    refine ⟨fun _ => hplay, hB, hC, fun _ => ⟨h1, fun _ => ⟨by simp, ?_, le_refl now⟩, ?_⟩⟩
    · simp only [Option.getD_some]
      linarith
    · intro hcontra
      simp at hcontra
  · have heq : pauseS s now = s := by simp [pauseS, hc]
    rw [heq]
    exact inv_mono _ _ _ h htn

/-- `resume` preserves the session invariant. -/
theorem inv_resumeS (s : PlayerState) (t now : Rat) (h : Inv s t) (htn : t ≤ now) :
    Inv (resumeS s now) now := by
  by_cases hc : (s.is_playing && s.is_paused && s.process.isSome) = true
  · obtain ⟨hA, hB, hC, hD⟩ := h
    have hc' := hc
    simp only [Bool.and_eq_true] at hc'
    obtain ⟨⟨hplay, hpause⟩, hproc⟩ := hc'
    obtain ⟨h1, h2, h3⟩ := hD hplay
    obtain ⟨hptSome, hposb, hptle⟩ := h2 hpause
    obtain ⟨st, hst⟩ := Option.isSome_iff_exists.mp h1
    obtain ⟨pt, hpt⟩ := Option.isSome_iff_exists.mp hptSome
    rw [hst, hpt] at hposb
    simp only [Option.getD_some] at hposb
    rw [hpt] at hptle
    simp only [Option.getD_some] at hptle
    simp only [resumeS, hc, if_true, hpt]
    by_cases hz : pt ≠ 0
    · rw [if_pos hz]
      refine ⟨fun hcontra => by simp at hcontra, hB, hC, fun _ => ⟨by simp [hst], ?_, ?_⟩⟩
      · intro hcontra
        simp at hcontra
      · intro _
        simp only [hst, Option.getD_some]
        linarith
    · have hz' : pt = 0 := by simpa using hz
      rw [if_neg hz]
      refine ⟨fun hcontra => by simp at hcontra, hB, hC, fun _ => ⟨by simp [hst], ?_, ?_⟩⟩
      · intro hcontra
        simp at hcontra
      · intro _
        simp only [hst, Option.getD_some]
        subst hz'
        linarith
  · have heq : resumeS s now = s := by simp [resumeS, hc]
    rw [heq]
    exact inv_mono _ _ _ h htn

/-- `toggle_play_pause` preserves the session invariant. -/
theorem inv_toggleS (s : PlayerState) (t now : Rat) (h : Inv s t) (htn : t ≤ now) :
    Inv (toggleS s now) now := by
  unfold toggleS
  by_cases hplay : s.is_playing = true
  · by_cases hp : s.is_paused = true
    · simp only [hplay, hp, if_true]
      exact inv_resumeS s t now h htn
    · simp only [Bool.not_eq_true] at hp
      simp only [hplay, hp, if_true, Bool.false_eq_true, if_false]
      exact inv_pauseS s t now h htn
  · simp only [Bool.not_eq_true] at hplay
    simp only [hplay, Bool.false_eq_true, if_false]
    exact inv_mono _ _ _ h htn

/-- `seek_forward` preserves the session invariant. -/
theorem inv_seekForwardS (s : PlayerState) (t : Rat) (fs : String → Bool)
    (launch : Bool) (now : Rat) (h : Inv s t) (htn : t ≤ now) :
    Inv (seekForwardS s fs launch now) now := by
  by_cases hplay : s.is_playing = true
  · have hpos : 0 ≤ s.current_position + s.seek_seconds :=
      add_nonneg h.2.1 h.2.2.1
    have hstart := inv_startS s t fs launch now s.current_file
      (s.current_position + s.seek_seconds) h htn hpos
    unfold seekForwardS
    simp only [hplay, if_true]
    by_cases hp : s.is_paused = true
    · simp only [hp, if_true]
      exact inv_pauseS _ now now hstart (le_refl now)
    · simp only [Bool.not_eq_true] at hp
      simp only [hp, Bool.false_eq_true, if_false]
      exact hstart
  · simp only [Bool.not_eq_true] at hplay
    unfold seekForwardS
    simp only [hplay, Bool.false_eq_true, if_false]
    exact inv_mono _ _ _ h htn

/-- `seek_backward` preserves the session invariant. -/
theorem inv_seekBackwardS (s : PlayerState) (t : Rat) (fs : String → Bool)
    (launch : Bool) (now : Rat) (h : Inv s t) (htn : t ≤ now) :
    Inv (seekBackwardS s fs launch now) now := by
  by_cases hplay : s.is_playing = true
  · have hpos : (0 : Rat) ≤ max 0 (s.current_position - s.seek_seconds) :=
      le_max_left _ _
    have hstart := inv_startS s t fs launch now s.current_file
      (max 0 (s.current_position - s.seek_seconds)) h htn hpos
    unfold seekBackwardS
    simp only [hplay, if_true]
    by_cases hp : s.is_paused = true
    · simp only [hp, if_true]
      exact inv_pauseS _ now now hstart (le_refl now)
    · simp only [Bool.not_eq_true] at hp
      simp only [hp, Bool.false_eq_true, if_false]
      exact hstart
  · simp only [Bool.not_eq_true] at hplay
    unfold seekBackwardS
    simp only [hplay, Bool.false_eq_true, if_false]
    exact inv_mono _ _ _ h htn

/-- One monitor-loop iteration preserves the session invariant. -/
theorem inv_tickS (s : PlayerState) (t now : Rat) (ex : Bool)
    (h : Inv s t) (htn : t ≤ now) : Inv (tickS s now ex) now := by
  by_cases hrun : (s.running && s.is_playing) = true
  · by_cases hguard : (!s.is_paused && s.playback_start_time.isSome) = true
    · obtain ⟨hA, hB, hC, hD⟩ := h
      have hrun' := hrun
      simp only [Bool.and_eq_true] at hrun'
      obtain ⟨hrunning, hplay⟩ := hrun'
      have hg := hguard
      simp only [Bool.and_eq_true, Bool.not_eq_true'] at hg
      obtain ⟨hpause, hpst⟩ := hg
      obtain ⟨st, hst⟩ := Option.isSome_iff_exists.mp hpst
      obtain ⟨h1, h2, h3⟩ := hD hplay
      have hbound := h3 hpause
      rw [hst] at hbound
      simp only [Option.getD_some] at hbound
      have hppos : (0 : Rat) ≤ now - st - s.accumulated_pause_duration := by linarith
      have hest : estPos s now = now - st - s.accumulated_pause_duration := by
        simp [estPos, hst]
      simp only [tickS, hrun, hguard, if_true, hest]
      by_cases hexit : (s.process.isSome && ex) = true
      · simp only [hexit, if_true]
        refine ⟨?_, ?_, ?_, ?_⟩
        · intro hcontra
          simp [hpause] at hcontra
        · simpa using hppos
        · simpa using hC
        · intro hcontra
          simp at hcontra
      · simp only [hexit, Bool.false_eq_true, if_false]
        cases hsleep : s.sleep_timer_end with
        | none =>
            simp only
            refine ⟨?_, ?_, ?_, ?_⟩
            · intro hcontra
              simp [hpause] at hcontra
            · simpa using hppos
            · simpa using hC
            · intro _
              refine ⟨by simp [hst], ?_, ?_⟩
              · intro hcontra
                simp [hpause] at hcontra
              · intro _
                simp [hst]
        | some dl =>
            simp only
            by_cases hdl : (dl ≠ 0 && decide (dl ≤ now)) = true
            · simp only [hdl, if_true]
              by_cases hproc : s.process.isSome = true
              · have hcond : (({ s with current_position :=
                    now - st - s.accumulated_pause_duration }).is_playing &&
                    !({ s with current_position :=
                    now - st - s.accumulated_pause_duration }).is_paused &&
                    ({ s with current_position :=
                    now - st - s.accumulated_pause_duration }).process.isSome) = true := by
                  simp [hplay, hpause, hproc]
                simp only [pauseS, hcond, if_true]
                refine ⟨fun _ => hplay, ?_, ?_, ?_⟩
                · simpa using hppos
                · simpa using hC
                · intro _
                  refine ⟨by simp [hst], ?_, ?_⟩
                  · intro _
                    refine ⟨by simp, ?_, le_refl now⟩
                    simp [hst]
                  · intro hcontra
                    simp at hcontra
              · have hcond : (({ s with current_position :=
                    now - st - s.accumulated_pause_duration }).is_playing &&
                    !({ s with current_position :=
                    now - st - s.accumulated_pause_duration }).is_paused &&
                    ({ s with current_position :=
                    now - st - s.accumulated_pause_duration }).process.isSome) = false := by
                  simp only [Bool.not_eq_true] at hproc
                  simp [hplay, hpause, hproc]
                simp only [pauseS, hcond, Bool.false_eq_true, if_false]
                refine ⟨?_, ?_, ?_, ?_⟩
                · intro hcontra
                  simp [hpause] at hcontra
                · simpa using hppos
                · simpa using hC
                · intro _
                  refine ⟨by simp [hst], ?_, ?_⟩
                  · intro hcontra
                    simp [hpause] at hcontra
                  · intro _
                    simp [hst]
            · simp only [hdl, Bool.false_eq_true, if_false]
              refine ⟨?_, ?_, ?_, ?_⟩
              · intro hcontra
                simp [hpause] at hcontra
              · simpa using hppos
              · simpa using hC
              · intro _
                refine ⟨by simp [hst], ?_, ?_⟩
                · intro hcontra
                  simp [hpause] at hcontra
                · intro _
                  simp [hst]
    · have heq : tickS s now ex = s := by
        simp only [tickS, hrun, if_true, hguard, Bool.false_eq_true, if_false]
      rw [heq]
      exact inv_mono _ _ _ h htn
  · have heq : tickS s now ex = s := by
      simp only [tickS, hrun, Bool.false_eq_true, if_false]
    rw [heq]
    exact inv_mono _ _ _ h htn

/-- `pause` never changes the stored position. -/
theorem pauseS_position (s : PlayerState) (now : Rat) :
    (pauseS s now).current_position = s.current_position := by
  unfold pauseS
  split <;> rfl

/-- `resume` never changes the stored position. -/
theorem resumeS_position (s : PlayerState) (now : Rat) :
    (resumeS s now).current_position = s.current_position := by
  unfold resumeS
  split
  · split
    · split <;> rfl
    · rfl
  · rfl

/-- C9: all public operations (start with a non-negative position, stop,
pause, resume, togglePlayPause, seekForward, seekBackward) and every
monitor-loop iteration preserve the session invariant `Inv`, whose first
two conjuncts are exactly `is_paused ⇒ is_playing` and
`estimated position ≥ 0`. -/
theorem C9_invariants_preserved :
    (∀ s t, Inv s t →
      (s.is_paused = true → s.is_playing = true) ∧ 0 ≤ s.current_position) ∧
    (∀ s t fs launch now file p, Inv s t → t ≤ now → 0 ≤ p →
      Inv (startS s fs launch now file p).1 now) ∧
    (∀ s t, Inv s t → Inv (stopS s) t) ∧
    (∀ s t now, Inv s t → t ≤ now → Inv (pauseS s now) now) ∧
    (∀ s t now, Inv s t → t ≤ now → Inv (resumeS s now) now) ∧
    (∀ s t now, Inv s t → t ≤ now → Inv (toggleS s now) now) ∧
    (∀ s t fs launch now, Inv s t → t ≤ now → Inv (seekForwardS s fs launch now) now) ∧
    (∀ s t fs launch now, Inv s t → t ≤ now → Inv (seekBackwardS s fs launch now) now) ∧
    (∀ s t now ex, Inv s t → t ≤ now → Inv (tickS s now ex) now) :=
  ⟨fun _ _ h => ⟨h.1, h.2.1⟩,
   fun s t fs launch now file p h htn hp => inv_startS s t fs launch now file p h htn hp,
   fun s t h => inv_stopS s t h,
   fun s t now h htn => inv_pauseS s t now h htn,
   fun s t now h htn => inv_resumeS s t now h htn,
   fun s t now h htn => inv_toggleS s t now h htn,
   fun s t fs launch now h htn => inv_seekForwardS s t fs launch now h htn,
   fun s t fs launch now h htn => inv_seekBackwardS s t fs launch now h htn,
   fun s t now ex h htn => inv_tickS s t now ex h htn⟩

theorem C9_witness : Inv (pauseS samplePlaying 100) 100 :=
  C9_invariants_preserved.2.2.2.1 samplePlaying 100 100
    (by norm_num [Inv, samplePlaying]) (le_refl 100)

/-- C3: under the session invariant, a monitor-loop position update never
decreases the position while the session is playing and unpaused; while
paused neither a monitor iteration nor pause/resume themselves change the
stored position; `resume` continues exactly from the position at pause
time (the monitor estimate at the resume instant equals the estimate at
the pause instant); a monitor update writes exactly the estimate; and the
invariant is maintained along every chronological sequence of
pause/resume/monitor events. -/
theorem C3_position_tracking :
    (∀ s t now ex, Inv s t → t ≤ now → s.is_playing = true → s.is_paused = false →
      s.current_position ≤ (tickS s now ex).current_position) ∧
    (∀ s now ex, s.is_paused = true →
      (tickS s now ex).current_position = s.current_position) ∧
    (∀ s now, (pauseS s now).current_position = s.current_position) ∧
    (∀ s now, (resumeS s now).current_position = s.current_position) ∧
    (∀ s tp tr, s.is_playing = true → s.is_paused = true → s.process.isSome = true →
      s.pause_time = some tp → tp ≠ 0 → estPos (resumeS s tr) tr = estPos s tp) ∧
    (∀ s now ex, s.running = true → s.is_playing = true → s.is_paused = false →
      s.playback_start_time.isSome = true →
      (tickS s now ex).current_position = estPos s now) ∧
    (∀ s t es, Inv s t → Chrono t es → Inv (runTrace s es) (endTime t es)) := by
  refine ⟨?_, ?_, pauseS_position, resumeS_position, ?_, ?_, ?_⟩
  · intro s t now ex h htn hplay hpause
    by_cases hrun : (s.running && s.is_playing) = true
    · have hpst := (h.2.2.2 hplay).1
      obtain ⟨st, hst⟩ := Option.isSome_iff_exists.mp hpst
      have hguard : (!s.is_paused && s.playback_start_time.isSome) = true := by
        simp [hpause, hpst]
      have hbound := (h.2.2.2 hplay).2.2 hpause
      rw [hst] at hbound
      simp only [Option.getD_some] at hbound
      have hest : estPos s now = now - st - s.accumulated_pause_duration := by
        simp [estPos, hst]
      simp only [tickS, hrun, hguard, if_true, hest]
      by_cases hexit : (s.process.isSome && ex) = true
      · simp only [hexit, if_true]
        show s.current_position ≤ now - st - s.accumulated_pause_duration
        linarith
      · simp only [hexit, Bool.false_eq_true, if_false]
        cases hsleep : s.sleep_timer_end with
        | none =>
            show s.current_position ≤ now - st - s.accumulated_pause_duration
            linarith
        | some dl =>
            by_cases hdl : (dl ≠ 0 && decide (dl ≤ now)) = true
            · simp only [hdl, if_true, pauseS_position]
              show s.current_position ≤ now - st - s.accumulated_pause_duration
              linarith
            · simp only [hdl, Bool.false_eq_true, if_false]
              show s.current_position ≤ now - st - s.accumulated_pause_duration
              linarith
    · have heq : tickS s now ex = s := by
        simp only [tickS, hrun, Bool.false_eq_true, if_false]
      rw [heq]
  · intro s now ex hpause
    by_cases hrun : (s.running && s.is_playing) = true
    · have hguard : (!s.is_paused && s.playback_start_time.isSome) = false := by
        simp [hpause]
      simp [tickS, hrun, hguard]
    · simp [tickS, hrun]
  · intro s tp tr hplay hpause hproc hpt hz
    have hcond : (s.is_playing && s.is_paused && s.process.isSome) = true := by
      simp [hplay, hpause, hproc]
    simp only [resumeS, hcond, if_true, hpt]
    rw [if_pos hz]
    unfold estPos
    cases hst : s.playback_start_time with
    | none => simp
    | some st =>
        simp only
        ring
  · intro s now ex hrunning hplay hpause hpst
    have hrun : (s.running && s.is_playing) = true := by simp [hrunning, hplay]
    have hguard : (!s.is_paused && s.playback_start_time.isSome) = true := by
      simp [hpause, hpst]
    simp only [tickS, hrun, hguard, if_true]
    by_cases hexit : (s.process.isSome && ex) = true
    · simp only [hexit, if_true]
    · simp only [hexit, Bool.false_eq_true, if_false]
      cases hsleep : s.sleep_timer_end with
      | none => rfl
      | some dl =>
          by_cases hdl : (dl ≠ 0 && decide (dl ≤ now)) = true
          · simp only [hdl, if_true, pauseS_position]
          · simp only [hdl, Bool.false_eq_true, if_false]
  · intro s t es
    induction es generalizing s t with
    | nil =>
        intro h _
        simpa [runTrace, endTime] using h
    | cons e es ih =>
        intro h hch
        obtain ⟨hte, hch'⟩ := hch
        have hstep : Inv (pstep s e) (evTime e) := by
          cases e with
          | pauseE t1 => exact inv_pauseS s t t1 h hte
          | resumeE t1 => exact inv_resumeS s t t1 h hte
          | tickE t1 ex => exact inv_tickS s t t1 ex h hte
        simpa [runTrace, endTime] using ih (pstep s e) (evTime e) hstep hch'

theorem C3_witness :
    samplePlaying.current_position ≤ (tickS samplePlaying 101 false).current_position :=
  C3_position_tracking.1 samplePlaying 100 101 false
    (by norm_num [Inv, samplePlaying]) (by norm_num) rfl rfl

/-- Field effects of a successful `start` on an existing file. -/
theorem startS_success (s : PlayerState) (fs : String → Bool) (now : Rat)
    (f : String) (p : Rat) (hfs : fs f = true) :
    (startS s fs true now (some f) p).2 = true ∧
    (startS s fs true now (some f) p).1.is_playing = true ∧
    (startS s fs true now (some f) p).1.is_paused = false ∧
    (startS s fs true now (some f) p).1.current_file = some f ∧
    (startS s fs true now (some f) p).1.current_position = p := by
  simp [startS, hfs]

/-- C6: pressing next/prev book from book `i` of `N` first persists the
current book's position, switches the persisted state to index
`(i ± 1) mod N` with position reset to 0.0, plays the announcement clip
named after the new 1-based index, starts playback of the new book's file
at position 0, and updates the LEDs — in that order; and `next` from the
last index wraps to 0. -/
theorem C6_book_switching (books : List Book) (annPath : String)
    (fs : String → Bool) (now : Rat) (app : AppState) (i : Int)
    (hN : 0 < (books.length : Int))
    (hidx : app.sm.current_book_index = i)
    (h0 : 0 ≤ i) (hiN : i < (books.length : Int))
    (hpos : 0 ≤ app.player.current_position)
    (hfsN : fs (getBookAt books ((i + 1) % (books.length : Int))).path = true)
    (hfsP : fs (getBookAt books ((i - 1) % (books.length : Int))).path = true) :
    ((on_next_book books annPath fs true now app).1.sm =
        ⟨(i + 1) % (books.length : Int), 0⟩ ∧
      (on_next_book books annPath fs true now app).1.player.is_playing = true ∧
      (on_next_book books annPath fs true now app).1.player.current_file =
        some (getBookAt books ((i + 1) % (books.length : Int))).path ∧
      (on_next_book books annPath fs true now app).1.player.current_position = 0 ∧
      (on_next_book books annPath fs true now app).2 =
        [.stateSaved (save_json ⟨i, app.player.current_position⟩),
         .stateSaved (save_json ⟨(i + 1) % (books.length : Int), 0⟩),
         .announcementPlayed
           (annPath ++ "/" ++ toString ((i + 1) % (books.length : Int) + 1) ++ ".mp3")
           (fs (annPath ++ "/" ++ toString ((i + 1) % (books.length : Int) + 1) ++ ".mp3")),
         .playbackStarted (getBookAt books ((i + 1) % (books.length : Int))).path 0 true,
         .ledsUpdated ((i + 1) % (books.length : Int))]) ∧
    ((on_prev_book books annPath fs true now app).1.sm =
        ⟨(i - 1) % (books.length : Int), 0⟩ ∧
      (on_prev_book books annPath fs true now app).1.player.is_playing = true ∧
      (on_prev_book books annPath fs true now app).1.player.current_file =
        some (getBookAt books ((i - 1) % (books.length : Int))).path ∧
      (on_prev_book books annPath fs true now app).1.player.current_position = 0 ∧
      (on_prev_book books annPath fs true now app).2 =
        [.stateSaved (save_json ⟨i, app.player.current_position⟩),
         .stateSaved (save_json ⟨(i - 1) % (books.length : Int), 0⟩),
         .announcementPlayed
           (annPath ++ "/" ++ toString ((i - 1) % (books.length : Int) + 1) ++ ".mp3")
           (fs (annPath ++ "/" ++ toString ((i - 1) % (books.length : Int) + 1) ++ ".mp3")),
         .playbackStarted (getBookAt books ((i - 1) % (books.length : Int))).path 0 true,
         .ledsUpdated ((i - 1) % (books.length : Int))]) ∧
    (i = (books.length : Int) - 1 → (i + 1) % (books.length : Int) = 0) := by
  have hNne : (books.length : Int) ≠ 0 := ne_of_gt hN
  have hj0 : 0 ≤ (i + 1) % (books.length : Int) := Int.emod_nonneg _ hNne
  have hjN : (i + 1) % (books.length : Int) < (books.length : Int) :=
    Int.emod_lt_of_pos _ hN
  have hp0 : 0 ≤ (i - 1) % (books.length : Int) := Int.emod_nonneg _ hNne
  have hpN : (i - 1) % (books.length : Int) < (books.length : Int) :=
    Int.emod_lt_of_pos _ hN
  refine ⟨?_, ?_, ?_⟩
  · simp only [on_next_book, switch_book, hidx]
    rw [if_pos ⟨hj0, hjN⟩]
    simp [set_position, set_book, save_json, startS, stopS, hfsN, hidx,
      max_eq_right hpos]
  · simp only [on_prev_book, switch_book, hidx]
    rw [if_pos ⟨hp0, hpN⟩]
    simp [set_position, set_book, save_json, startS, stopS, hfsP, hidx,
      max_eq_right hpos]
  · intro hlast
    rw [hlast]
    have harith : (books.length : Int) - 1 + 1 = (books.length : Int) := by ring
    rw [harith, Int.emod_self]

/-- A two-book library for concrete evaluation. -/
def sampleBooks : List Book :=
  [{ name := "Book 1", path := "b1.mp3" }, { name := "Book 2", path := "b2.mp3" }]

/-- An orchestrator state sitting at the last book (index 1) with a live
session. -/
def sampleApp : AppState :=
  { sm := { current_book_index := 1, current_position := 12 }
    player := samplePlaying }

theorem C6_witness :
    (on_next_book sampleBooks "ann" (fun _ => true) true 100 sampleApp).1.sm =
      ⟨((1 : Int) + 1) % ((sampleBooks.length : Nat) : Int), 0⟩ ∧
    ((1 : Int) = ((sampleBooks.length : Nat) : Int) - 1 →
      ((1 : Int) + 1) % ((sampleBooks.length : Nat) : Int) = 0) := by
  have h := C6_book_switching sampleBooks "ann" (fun _ => true) 100 sampleApp 1
    (by decide) rfl (by decide) (by decide)
    (by norm_num [sampleApp, samplePlaying]) rfl rfl
  exact ⟨h.1.1, h.2.2⟩

end PiAudioBook
